import Mathlib

/-!
Verification of the note data model and note store of `notepy_online`
(`src/notepy_online/core.py`), as a shallow embedding.

Modelling conventions:
* Python `datetime` values are integers (microseconds since the epoch).
  `datetime.isoformat` / `datetime.fromisoformat` form a lossless codec at
  this precision; the codec is modelled at the semantic level by the
  `JVal.iso` constructor, which stands for a string in ISO-8601 form
  denoting the given instant.
* Each call to `datetime.now(timezone.utc)` is modelled by an explicit
  integer oracle argument (`now`, `now1`, `now2`): the value the clock
  returns at that call site.  A call to `uuid.uuid4()` is modelled by an
  explicit string oracle argument (`freshId`, `fid`).
* Python dicts (including parsed JSON objects and the id-to-note map) are
  insertion-ordered association lists; `dlookup`/`dinsert` give Python's
  dict read and write semantics (a write to an existing key keeps its
  position, a write to a new key appends).
* JSON values are the fragment actually used by the program's files
  (`JVal`).  Python is dynamically typed; where the source would pass a
  non-string JSON value into a string-typed `Note` field without raising,
  the typed model coerces it with `jvalAsString` (documented there).
* The filesystem is an association list from path to file data; the
  `html2text` library call (together with the module's regex cleanup and
  final `strip`) is an abstract conversion parameter `h2t`.
* Fallible Python code (raised exceptions) returns `Except String`.
-/

namespace NotepyOnline

/-- JSON values, restricted to the fragment the program's files use.
`iso t` is a string in ISO-8601 timestamp form denoting the instant `t`;
`strList` is a JSON array of strings. -/
inductive JVal where
  | s (v : String)
  | iso (t : Int)
  | strList (vs : List String)
  | obj (kvs : List (String × JVal))

/-- Python dict lookup on an insertion-ordered association list
(first match; keys are unique in dicts produced by `dinsert`). -/
def dlookup {α : Type} (d : List (String × α)) (k : String) : Option α :=
  match d with
  | [] => none
  | kv :: rest => if kv.1 == k then some kv.2 else dlookup rest k

/-- Python dict write `d[k] = v`: overwrite in place if the key exists
(keeping its position), otherwise append. -/
def dinsert {α : Type} (k : String) (v : α) (d : List (String × α)) : List (String × α) :=
  if d.any (fun kv => kv.1 == k) then
    d.map (fun kv => if kv.1 == k then (k, v) else kv)
  else d ++ [(k, v)]

/-- Python `x or d` for an optional string argument: `None` and the empty
string are falsy, so both select the default. -/
def pyStrOr (x : Option String) (d : String) : String :=
  match x with
  | none => d
  | some s => if s = "" then d else s

/-- Python `x or d` for an optional list argument: `None` and the empty
list are falsy, so both select the default. -/
def pyListOr (x : Option (List String)) (d : List String) : List String :=
  match x with
  | none => d
  | some l => if l = [] then d else l

/-- Coercion from a JSON value to a Python string-typed field.  The source
is dynamically typed and would store a non-string value unchanged without
raising; the typed model maps that (unrepresentable) case to `""`.  No
claim depends on the value of a non-string field. -/
def jvalAsString : JVal → String
  | .s v => v
  | _ => ""

/-- The `datetime.fromisoformat` call applied to a JSON value: succeeds
exactly on a string in ISO-8601 form (constructor `JVal.iso`), raising
`TypeError`/`ValueError` (modelled as `Except.error`) otherwise. -/
def fromisoformat : JVal → Except String Int
  | .iso t => .ok t
  | _ => .error "Invalid isoformat string"

/-- A note: `src/notepy_online/core.py`, class `Note`. -/
structure Note where
  title : String
  content : String
  tags : List String
  note_id : String
  created_at : Int
  updated_at : Int
deriving Repr, DecidableEq

/-- Substring test on character lists, modelling Python's `in` operator
for strings. -/
def containsSub : List Char → List Char → Bool
  | p, [] => p.isEmpty
  | p, c :: t => p.isPrefixOf (c :: t) || containsSub p t

/-- Python `needle in hay` for strings. -/
def pyIn (needle hay : String) : Bool :=
  containsSub needle.data hay.data

/-- Python `str.lower()`: per-character lowercasing. -/
def strLower (s : String) : String := ⟨s.data.map Char.toLower⟩

/-- `Note.__init__`.  `freshId` is the value `str(uuid.uuid4())` would
return; `now1` and `now2` are the values `datetime.now(timezone.utc)`
would return at the two default-timestamp call sites (the source calls
the clock separately for `created_at` and for `updated_at`).  A
`datetime` object is always truthy, so `created_at or now` is `getD`;
strings and lists use Python truthiness via `pyStrOr`/`pyListOr`. -/
def Note.init (title : String) (content : String) (tags : Option (List String))
    (note_id : Option String) (created_at updated_at : Option Int)
    (freshId : String) (now1 now2 : Int) : Note :=
  { title := title
    content := content
    tags := pyListOr tags []
    note_id := pyStrOr note_id freshId
    created_at := created_at.getD now1
    updated_at := updated_at.getD now2 }

/-- `Note.to_dict`. -/
def Note.to_dict (n : Note) : List (String × JVal) :=
  [("note_id", .s n.note_id),
   ("title", .s n.title),
   ("content", .s n.content),
   ("tags", .strList n.tags),
   ("created_at", .iso n.created_at),
   ("updated_at", .iso n.updated_at)]

/-- The `data.get("tags", [])` expression of `Note.from_dict`: a
non-list value would be stored unchanged by the dynamically typed
source (without raising); the typed model coerces it to `[]`. -/
def dictGetTags (d : List (String × JVal)) : List String :=
  match dlookup d "tags" with
  | some (.strList vs) => vs
  | _ => []

/-- `Note.from_dict`.  Required fields are `title`, `note_id`,
`created_at`, `updated_at`; a missing required field raises `KeyError`
and a timestamp that is not a valid ISO string raises, both modelled as
`Except.error`.  `freshId` is threaded to `Note.init` for the corner
case of a falsy stored `note_id`. -/
def Note.from_dict (data : List (String × JVal)) (content : String)
    (freshId : String) : Except String Note :=
  let note_content := if content = "" then jvalAsString ((dlookup data "content").getD (.s "")) else content
  match dlookup data "title" with
  | none => .error "KeyError: title"
  | some tv =>
    match dlookup data "note_id" with
    | none => .error "KeyError: note_id"
    | some iv =>
      match dlookup data "created_at" with
      | none => .error "KeyError: created_at"
      | some cv =>
        match fromisoformat cv with
        | .error e => .error e
        | .ok ca =>
          match dlookup data "updated_at" with
          | none => .error "KeyError: updated_at"
          | some uv =>
            match fromisoformat uv with
            | .error e => .error e
            | .ok ua =>
              .ok (Note.init (jvalAsString tv) note_content (some (dictGetTags data))
                    (some (jvalAsString iv)) (some ca) (some ua) freshId 0 0)

/-- Python `str.strip()`: drop leading and trailing whitespace. -/
def pyStrip (s : String) : String :=
  ⟨((s.data.dropWhile Char.isWhitespace).reverse.dropWhile Char.isWhitespace).reverse⟩

/-- The module-level `html_to_markdown` function.  `h2t` abstracts the
external `html2text` conversion together with the module's regex cleanup
and final `strip` (all operating on library output). -/
def html_to_markdown (h2t : String → String) (html_content : String) : String :=
  if html_content = "" ∨ pyStrip html_content = "" then "" else h2t html_content

/-- `Note.update`: apply any provided field, converting content from
HTML to Markdown, then set `updated_at` to the clock value `now`. -/
def Note.update (n : Note) (h2t : String → String) (title content : Option String)
    (tags : Option (List String)) (now : Int) : Note :=
  let n1 := match title with
    | some t => { n with title := t }
    | none => n
  let n2 := match content with
    | some c => { n1 with content := html_to_markdown h2t c }
    | none => n1
  let n3 := match tags with
    | some ts => { n2 with tags := ts }
    | none => n2
  { n3 with updated_at := now }

/-- `Note.add_tag`: append if not already present; bump `updated_at`
only when added. -/
def Note.add_tag (n : Note) (tag : String) (now : Int) : Note :=
  if n.tags.contains tag then n
  else { n with tags := n.tags ++ [tag], updated_at := now }

/-- `Note.remove_tag`: remove the first occurrence if present; bump
`updated_at` only when removed. -/
def Note.remove_tag (n : Note) (tag : String) (now : Int) : Note :=
  if n.tags.contains tag then { n with tags := n.tags.erase tag, updated_at := now }
  else n

/-- `Note.search_in_content`: case-insensitive substring test against
title, content, and each tag. -/
def Note.search_in_content (n : Note) (query : String) : Bool :=
  let query_lower := strLower query
  pyIn query_lower (strLower n.title)
    || pyIn query_lower (strLower n.content)
    || n.tags.any (fun tag => pyIn query_lower (strLower tag))

/-- A file on disk: either a JSON document (what `json.load` would parse)
or plain text (a markdown content file, or a file `json.load` rejects). -/
inductive FileData where
  | json (v : JVal)
  | text (s : String)

/-- The filesystem: path to file data, with Python-dict semantics. -/
abbrev FS := List (String × FileData)

/-- The note store: `src/notepy_online/core.py`, class `NoteManager`.
`notes` is the insertion-ordered id-to-note dict; `notes_file` is the
path of the JSON metadata file. -/
structure NoteManager where
  notes : List (String × Note)
  notes_file : String

/-- `NoteManager._load_note_content`: read the note's markdown file,
returning `""` when it does not exist (or cannot be read). -/
def NoteManager._load_note_content (fs : FS) (note_id : String) : String :=
  match dlookup fs (note_id ++ ".md") with
  | some (.text s) => s
  | _ => ""

/-- One entry of the `_load_notes` loop body: load the content file for
the entry's key and deserialize the entry's value, keeping the key. -/
def loadEntry (fs : FS) (fid : String) (kv : String × JVal) : Except String (String × Note) :=
  match kv.2 with
  | .obj nd =>
    (Note.from_dict nd (NoteManager._load_note_content fs kv.1) fid).map (fun n => (kv.1, n))
  | _ => .error "AttributeError"

/-- Sequential effectful map, mirroring the Python loop that aborts on
the first raised exception. -/
def mapME {α β : Type} (f : α → Except String β) : List α → Except String (List β)
  | [] => .ok []
  | x :: l =>
    match f x with
    | .error e => .error e
    | .ok b =>
      match mapME f l with
      | .error e => .error e
      | .ok bs => .ok (b :: bs)

/-- `NoteManager._load_notes`: if the metadata file exists, parse it and
rebuild every note.  The whole per-entry loop sits inside one `try`, so
any failure (unparseable file, non-object document, or any single entry
that fails to deserialize) logs a warning and leaves the store empty. -/
def NoteManager._load_notes (fs : FS) (notes_file : String) (fid : String) :
    List (String × Note) :=
  match dlookup fs notes_file with
  | none => []
  | some (.text _) => []
  | some (.json v) =>
    match v with
    | .obj data =>
      match mapME (loadEntry fs fid) data with
      | .ok pairs => pairs.foldl (fun d kv => dinsert kv.1 kv.2 d) []
      | .error _ => []
    | _ => []

/-- `NoteManager._save_note_content`: write one note's markdown file. -/
def NoteManager._save_note_content (fs : FS) (note_id : String) (content : String) : FS :=
  dinsert (note_id ++ ".md") (.text content) fs

/-- `NoteManager._save_notes`: full-overwrite write of the metadata file,
then each note's content file. -/
def NoteManager._save_notes (m : NoteManager) (fs : FS) : FS :=
  let data := m.notes.map (fun kv => (kv.1, JVal.obj kv.2.to_dict))
  let fs1 := dinsert m.notes_file (.json (.obj data)) fs
  m.notes.foldl (fun acc kv => NoteManager._save_note_content acc kv.1 kv.2.content) fs1

/-- `NoteManager.create_note`: convert content to Markdown, build the
note (fresh id from `freshId`, timestamps from the two clock readings
`now1`, `now2`), insert it, persist, and return it. -/
def NoteManager.create_note (h2t : String → String) (m : NoteManager) (fs : FS)
    (title : String) (content : String) (tags : Option (List String))
    (freshId : String) (now1 now2 : Int) : Note × NoteManager × FS :=
  let markdown_content := html_to_markdown h2t content
  let note := Note.init title markdown_content tags none none none freshId now1 now2
  let m2 : NoteManager := { m with notes := dinsert note.note_id note m.notes }
  (note, m2, NoteManager._save_notes m2 fs)

/-- `NoteManager.get_note`: in-memory lookup; the store is untouched. -/
def NoteManager.get_note (m : NoteManager) (note_id : String) : Option Note × NoteManager :=
  (dlookup m.notes note_id, m)

/-- Python truthiness of an optional list (`if tags:`). -/
def pyTruthyList : Option (List String) → Bool
  | none => false
  | some l => !l.isEmpty

/-- Python truthiness of an optional string (`if search_query:`): `None`
and the empty string are falsy. -/
def pyTruthyStr : Option String → Bool
  | none => false
  | some s => !(s == "")

/-- Stable insertion (descending by `updated_at`) of one note into an
already-sorted list: the note goes in front of the first element whose
`updated_at` is not larger, so among equal keys earlier input stays
first.  Models the stability of Python's `list.sort(..., reverse=True)`. -/
def insDesc (x : Note) : List Note → List Note
  | [] => [x]
  | y :: l => if y.updated_at ≤ x.updated_at then x :: y :: l else y :: insDesc x l

/-- Stable sort by `updated_at` descending, modelling
`notes.sort(key=lambda x: x.updated_at, reverse=True)`. -/
def sortDesc : List Note → List Note
  | [] => []
  | x :: l => insDesc x (sortDesc l)

/-- `NoteManager.list_notes`: optional tag filter and query filter (each
applied only when the argument is truthy, i.e. neither `None` nor
empty), then a stable sort newest-first. -/
def NoteManager.list_notes (m : NoteManager) (tags : Option (List String))
    (search_query : Option String) : List Note × NoteManager :=
  let notes := m.notes.map Prod.snd
  let notes1 := if pyTruthyList tags then
      notes.filter (fun note => (tags.getD []).any (fun tag => note.tags.contains tag))
    else notes
  let notes2 := if pyTruthyStr search_query then
      notes1.filter (fun note => note.search_in_content (search_query.getD ""))
    else notes1
  (sortDesc notes2, m)

/-- Ascending insertion of a string into a sorted list. -/
def insStrAsc (x : String) : List String → List String
  | [] => [x]
  | y :: l => if x < y ∨ x = y then x :: y :: l else y :: insStrAsc x l

/-- Ascending string sort, modelling Python's `sorted`. -/
def sortStrAsc : List String → List String
  | [] => []
  | x :: l => insStrAsc x (sortStrAsc l)

/-- `NoteManager.get_all_tags`: the deduplicated, alphabetically sorted
union of every note's tags (`sorted(list(set))`); the store is
untouched. -/
def NoteManager.get_all_tags (m : NoteManager) : List String × NoteManager :=
  (sortStrAsc ((m.notes.map (fun kv => kv.2.tags)).flatten.dedup), m)

/-- `NoteManager.get_note_count`: size of the in-memory map; the store
is untouched. -/
def NoteManager.get_note_count (m : NoteManager) : Nat × NoteManager :=
  (m.notes.length, m)

/-- `NoteManager.export_notes`: write every note (content included, the
source re-inserts the `content` key into the serialized dict) to a
single JSON file; the store is untouched. -/
def NoteManager.export_notes (m : NoteManager) (fs : FS) (file_path : String) :
    NoteManager × FS :=
  let data := m.notes.map (fun kv =>
    (kv.1, JVal.obj (dinsert "content" (.s kv.2.content) kv.2.to_dict)))
  (m, dinsert file_path (.json (.obj data)) fs)

/-- The body of the per-entry `try` in `NoteManager.import_notes`:
extract the embedded content (`note_data.get("content", "")`, which
never raises) and deserialize. -/
def importEntry (fid : String) (note_data : JVal) : Except String Note :=
  match note_data with
  | .obj d => Note.from_dict d (jvalAsString ((dlookup d "content").getD (.s ""))) fid
  | _ => .error "AttributeError"

/-- One iteration of the `import_notes` loop: on success insert the note
keyed by its own embedded id (overwriting) and count it; on failure log
and skip. -/
def importStep (fid : String) (acc : Nat × List (String × Note)) (kv : String × JVal) :
    Nat × List (String × Note) :=
  match importEntry fid kv.2 with
  | .ok note => (acc.1 + 1, dinsert note.note_id note acc.2)
  | .error _ => acc

/-- `NoteManager.import_notes`: a missing file raises
`FileNotFoundError`; an unparseable or non-object file raises; otherwise
each entry is imported independently (failures skipped), the store is
persisted once at the end when at least one note was imported, and the
count of imported notes is returned. -/
def NoteManager.import_notes (m : NoteManager) (fs : FS) (file_path : String)
    (fid : String) : Except String (Nat × NoteManager × FS) :=
  match dlookup fs file_path with
  | none => .error "FileNotFoundError"
  | some (.text _) => .error "JSONDecodeError"
  | some (.json v) =>
    match v with
    | .obj entries =>
      let r := entries.foldl (importStep fid) (0, m.notes)
      let m2 : NoteManager := { m with notes := r.2 }
      let fs2 := if r.1 > 0 then NoteManager._save_notes m2 fs else fs
      .ok (r.1, m2, fs2)
    | _ => .error "AttributeError"

/-- The claim's filter, stated from the spec's words: keep a note when
it has at least one tag in the given tag list (when a tag list is
provided) and it matches the query via the case-insensitive substring
test (when a query is provided). -/
def listSpecPred (tags : Option (List String)) (q : Option String) (n : Note) : Bool :=
  (match tags with
   | none => true
   | some ts => n.tags.any (fun t => ts.contains t))
  && (match q with
      | none => true
      | some s => n.search_in_content s)

/-- Notes reachable through the public note operations when every tag
list handed to `Construct` (`__init__`), `Deserialize` (`from_dict`) or
`Update` is itself duplicate-free. -/
inductive ReachableND : Note → Prop where
  | construct (title content : String) (tags : Option (List String))
      (note_id : Option String) (ca ua : Option Int) (fid : String) (n1 n2 : Int)
      (htags : ∀ l, tags = some l → l.Nodup) :
      ReachableND (Note.init title content tags note_id ca ua fid n1 n2)
  | deserialize (data : List (String × JVal)) (content fid : String) (n : Note)
      (hok : Note.from_dict data content fid = .ok n)
      (htags : (dictGetTags data).Nodup) : ReachableND n
  | update (n : Note) (hn : ReachableND n) (h2t : String → String)
      (title content : Option String) (tags : Option (List String)) (now : Int)
      (htags : ∀ l, tags = some l → l.Nodup) :
      ReachableND (n.update h2t title content tags now)
  | add_tag (n : Note) (hn : ReachableND n) (tag : String) (now : Int) :
      ReachableND (n.add_tag tag now)
  | remove_tag (n : Note) (hn : ReachableND n) (tag : String) (now : Int) :
      ReachableND (n.remove_tag tag now)

/-- Notes reachable through the public note operations under a monotone
clock: each mutator's clock reading is at least the note's `created_at`,
the two constructor readings are ordered, and timestamps supplied
explicitly (directly or through `Deserialize`) respect the ordering. -/
inductive ReachableTS : Note → Prop where
  | construct (title content : String) (tags : Option (List String))
      (note_id : Option String) (ca ua : Option Int) (fid : String) (n1 n2 : Int)
      (hle : ca.getD n1 ≤ ua.getD n2) :
      ReachableTS (Note.init title content tags note_id ca ua fid n1 n2)
  | deserialize (data : List (String × JVal)) (content fid : String) (n : Note)
      (hok : Note.from_dict data content fid = .ok n)
      (hts : ∀ ca ua : Int, dlookup data "created_at" = some (.iso ca) →
        dlookup data "updated_at" = some (.iso ua) → ca ≤ ua) : ReachableTS n
  | update (n : Note) (hn : ReachableTS n) (h2t : String → String)
      (title content : Option String) (tags : Option (List String)) (now : Int)
      (hnow : n.created_at ≤ now) :
      ReachableTS (n.update h2t title content tags now)
  | add_tag (n : Note) (hn : ReachableTS n) (tag : String) (now : Int)
      (hnow : n.created_at ≤ now) : ReachableTS (n.add_tag tag now)
  | remove_tag (n : Note) (hn : ReachableTS n) (tag : String) (now : Int)
      (hnow : n.created_at ≤ now) : ReachableTS (n.remove_tag tag now)

/-! Concrete instances used to instantiate the claims. -/

/-- Concrete note used to instantiate C1. -/
def note1 : Note :=
  { title := "Apple", content := "", tags := ["x"], note_id := "a",
    created_at := 0, updated_at := 0 }

/-- Concrete store used to instantiate C1. -/
def mgr1 : NoteManager := { notes := [("a", note1)], notes_file := "notes.json" }

/-- A converter with the behaviour of `html2text` on the inputs used
here: HTML bold markup becomes Markdown emphasis. -/
def h2t2 : String → String := fun s => if s = "<b>hi</b>" then "**hi**" else s

/-- Empty concrete store used to instantiate C2. -/
def mgr2 : NoteManager := { notes := [], notes_file := "notes.json" }

/-- Concrete note used to instantiate C3. -/
def note3 : Note :=
  { title := "T", content := "c", tags := ["a"], note_id := "n3",
    created_at := 3, updated_at := 4 }

/-- Well-formed serialized entry used to instantiate C5. -/
def dict5 : List (String × JVal) :=
  [("note_id", .s "a"), ("title", .s "T"), ("created_at", .iso 0), ("updated_at", .iso 0)]

/-- Metadata file holding one well-formed and one malformed entry. -/
def fs5 : FS := [("notes.json", .json (.obj [("a", .obj dict5), ("b", .s "junk")]))]

/-- Metadata file holding a single malformed entry, for the C5 witness. -/
def fs5w : FS := [("notes.json", .json (.obj [("b", .s "junk")]))]

/-- First well-formed entry of the C6 import file. -/
def dict6a : List (String × JVal) :=
  [("note_id", .s "a"), ("title", .s "A"), ("content", .s "x"),
   ("tags", .strList ["t1"]), ("created_at", .iso 1), ("updated_at", .iso 2)]

/-- Second well-formed entry of the C6 import file. -/
def dict6b : List (String × JVal) :=
  [("note_id", .s "b"), ("title", .s "B"), ("content", .s "y"),
   ("tags", .strList ["t2"]), ("created_at", .iso 3), ("updated_at", .iso 4)]

/-- Entries of the C6 import file: two valid notes and one malformed
entry. -/
def entries6 : List (String × JVal) :=
  [("a", .obj dict6a), ("b", .obj dict6b), ("c", .s "junk")]

/-- The C6 import file on disk. -/
def fs6 : FS := [("imp.json", .json (.obj entries6))]

/-- Empty concrete store used to instantiate C6. -/
def mgr6 : NoteManager := { notes := [], notes_file := "notes.json" }

/-- Concrete note used to instantiate the C7 theorem. -/
def note7 : Note :=
  { title := "t", content := "", tags := [], note_id := "id7", created_at := 0, updated_at := 0 }

/-- Serialized entry whose timestamps are reversed, used to refute C8 as
stated. -/
def dict8 : List (String × JVal) :=
  [("note_id", .s "a"), ("title", .s "t"), ("created_at", .iso 10), ("updated_at", .iso 5)]

/-- The note `Deserialize` builds from `dict8`. -/
def note8 : Note :=
  { title := "t", content := "", tags := [], note_id := "a",
    created_at := 10, updated_at := 5 }

/-! Helper lemmas about the stable descending sort. -/

theorem insDesc_perm (x : Note) (l : List Note) : (insDesc x l).Perm (x :: l) := by
  induction l with
  | nil => exact List.Perm.refl _
  | cons y l ih =>
    unfold insDesc
    by_cases h : y.updated_at ≤ x.updated_at
    · rw [if_pos h]
    · rw [if_neg h]
      exact (ih.cons y).trans (List.Perm.swap x y l)

theorem sortDesc_perm (l : List Note) : (sortDesc l).Perm l := by
  induction l with
  | nil => exact List.Perm.refl _
  | cons x l ih => exact (insDesc_perm x (sortDesc l)).trans (ih.cons x)

theorem insDesc_pairwise (x : Note) (l : List Note)
    (h : l.Pairwise (fun a b => b.updated_at ≤ a.updated_at)) :
    (insDesc x l).Pairwise (fun a b => b.updated_at ≤ a.updated_at) := by
  induction l with
  | nil => simp [insDesc]
  | cons y l ih =>
    rcases List.pairwise_cons.mp h with ⟨hy, hl⟩
    unfold insDesc
    by_cases hc : y.updated_at ≤ x.updated_at
    · rw [if_pos hc]
      refine List.pairwise_cons.mpr ⟨?_, h⟩
      intro b hb
      rcases List.mem_cons.mp hb with rfl | hb2
      · exact hc
      · exact le_trans (hy b hb2) hc
    · rw [if_neg hc]
      refine List.pairwise_cons.mpr ⟨?_, ih hl⟩
      intro b hb
      have hb2 : b ∈ x :: l := (insDesc_perm x l).mem_iff.mp hb
      rcases List.mem_cons.mp hb2 with rfl | hb3
      · exact le_of_lt (lt_of_not_le hc)
      · exact hy b hb3

theorem sortDesc_pairwise (l : List Note) :
    (sortDesc l).Pairwise (fun a b => b.updated_at ≤ a.updated_at) := by
  induction l with
  | nil => simp [sortDesc]
  | cons x l ih => exact insDesc_pairwise x (sortDesc l) ih

theorem insDesc_filter_key (x : Note) (l : List Note) (k : Int) :
    (insDesc x l).filter (fun n => n.updated_at == k)
      = (x :: l).filter (fun n => n.updated_at == k) := by
  induction l with
  | nil => rfl
  | cons y l ih =>
    unfold insDesc
    by_cases hc : y.updated_at ≤ x.updated_at
    · rw [if_pos hc]
    · rw [if_neg hc]
      by_cases hx : x.updated_at = k
      · have hy : (y.updated_at == k) = false := by
          have hlt : k < y.updated_at := hx ▸ lt_of_not_le hc
          simp [ne_of_gt hlt]
        simp [List.filter_cons, hy, hx, ih]
      · have hxb : (x.updated_at == k) = false := by simp [hx]
        simp [List.filter_cons, hxb, ih]

theorem sortDesc_filter_key (l : List Note) (k : Int) :
    (sortDesc l).filter (fun n => n.updated_at == k)
      = l.filter (fun n => n.updated_at == k) := by
  induction l with
  | nil => rfl
  | cons x l ih =>
    calc (insDesc x (sortDesc l)).filter (fun n => n.updated_at == k)
        = (x :: sortDesc l).filter (fun n => n.updated_at == k) :=
          insDesc_filter_key x (sortDesc l) k
      _ = (x :: l).filter (fun n => n.updated_at == k) := by
          simp [List.filter_cons, ih]

/-- C7: calling `AddTag` twice with the same tag yields the same note
(hence the same tag set) as calling it once, with no state change at all
from the second call, and the first call sets `updated_at` to its clock
reading when the tag was absent. -/
theorem add_tag_twice_eq_once (n : Note) (tag : String) (now1 now2 : Int) :
    (n.add_tag tag now1).add_tag tag now2 = n.add_tag tag now1
    ∧ (tag ∉ n.tags → (n.add_tag tag now1).updated_at = now1) := by
  constructor
  · by_cases h : tag ∈ n.tags
    · simp [Note.add_tag, h]
    · simp [Note.add_tag, h]
  · intro hmem
    simp [Note.add_tag, hmem]

/-- Witness for C7: a concrete note without the tag, for which the first
`AddTag` sets `updated_at` to its clock reading and the second is the
identity. -/
theorem add_tag_twice_eq_once_witness :
    "x" ∉ note7.tags
    ∧ (note7.add_tag "x" 5).add_tag "x" 9 = note7.add_tag "x" 5
    ∧ (note7.add_tag "x" 5).updated_at = 5 :=
  ⟨by decide, (add_tag_twice_eq_once note7 "x" 5 9).1,
   (add_tag_twice_eq_once note7 "x" 5 9).2 (by decide)⟩

/-- C10: the read operations `Get`, `List`, `AllTags`, `Count` and
`Export` leave the store (the id-to-note map, and with it every note's
fields) entirely unchanged; `Export` only writes to the filesystem. -/
theorem read_ops_preserve_store (m : NoteManager) (fs : FS) (note_id : String)
    (tags : Option (List String)) (q : Option String) (path : String) :
    (NoteManager.get_note m note_id).2 = m
    ∧ (NoteManager.list_notes m tags q).2 = m
    ∧ (NoteManager.get_all_tags m).2 = m
    ∧ (NoteManager.get_note_count m).2 = m
    ∧ (NoteManager.export_notes m fs path).1 = m :=
  ⟨rfl, rfl, rfl, rfl, rfl⟩

/-! Lemmas about the query test. -/

theorem containsSub_nil (s : List Char) : containsSub [] s = true := by
  cases s with
  | nil => rfl
  | cons c t => rfl

/-- The empty query matches every note: the empty string is a substring
of everything. -/
theorem search_in_content_empty (n : Note) : n.search_in_content "" = true := by
  have h : (strLower "").data = [] := rfl
  simp [Note.search_in_content, pyIn, h, containsSub_nil]

/-- C9: a provided-but-empty tag list and a provided-but-empty query are
falsy, so `list_notes` applies no filtering for them, behaving exactly as
if the argument had been omitted and returning every note. -/
theorem list_notes_empty_filter_args (m : NoteManager) (ot : Option (List String))
    (oq : Option String) :
    NoteManager.list_notes m (some []) oq = NoteManager.list_notes m none oq
    ∧ NoteManager.list_notes m ot (some "") = NoteManager.list_notes m ot none
    ∧ (NoteManager.list_notes m (some []) (some "")).1.Perm (m.notes.map Prod.snd) := by
  have hs : pyTruthyStr (some "") = false := by decide
  have hl : pyTruthyList (some ([] : List String)) = false := by decide
  refine ⟨rfl, ?_, ?_⟩
  · simp [NoteManager.list_notes, hs, show pyTruthyStr none = false from rfl]
  · simp [NoteManager.list_notes, hs, hl]
    exact sortDesc_perm _

theorem any_contains_comm (ts l : List String) :
    ts.any (fun tag => l.contains tag) = l.any (fun t => ts.contains t) := by
  simp only [List.any_eq, List.contains, List.elem_eq_mem, decide_eq_true_eq]
  rw [decide_eq_decide]
  constructor
  · rintro ⟨t, h1, h2⟩
    exact ⟨t, h2, h1⟩
  · rintro ⟨t, h1, h2⟩
    exact ⟨t, h2, h1⟩

/-- The two truthiness-guarded filters of `list_notes` compute the
spec's single filter, provided a supplied tag list is non-empty (an
empty one is falsy and is skipped by the source, which is claim C9). -/
theorem list_notes_filter_eq (m : NoteManager) (ot : Option (List String))
    (oq : Option String) (hne : ot ≠ some ([] : List String)) :
    (NoteManager.list_notes m ot oq).1
      = sortDesc ((m.notes.map Prod.snd).filter (listSpecPred ot oq)) := by
  have hsome : ∀ s : String, s ≠ "" → pyTruthyStr (some s) = true := by
    intro s hs
    simp [pyTruthyStr, hs]
  simp only [NoteManager.list_notes]
  rcases ot with _ | ts
  · rcases oq with _ | s
    · rw [if_neg (by decide : ¬pyTruthyStr none = true),
        if_neg (by decide : ¬pyTruthyList none = true)]
      congr 1
      exact (List.filter_eq_self.mpr (fun a _ => by simp [listSpecPred])).symm
    · by_cases hs : s = ""
      · subst hs
        rw [if_neg (by decide : ¬pyTruthyStr (some "") = true),
          if_neg (by decide : ¬pyTruthyList none = true)]
        congr 1
        exact (List.filter_eq_self.mpr (fun a _ => by
          simp [listSpecPred, search_in_content_empty])).symm
      · rw [if_pos (hsome s hs), if_neg (by decide : ¬pyTruthyList none = true)]
        congr 1
  · have hts : ts ≠ [] := by
      intro h
      exact hne (by rw [h])
    have htt : pyTruthyList (some ts) = true := by
      simp [pyTruthyList, List.isEmpty_iff, hts]
    rcases oq with _ | s
    · rw [if_neg (by decide : ¬pyTruthyStr none = true), if_pos htt]
      congr 1
      apply List.filter_congr
      intro a _
      show ts.any (fun tag => a.tags.contains tag) = _
      rw [any_contains_comm]
      simp [listSpecPred]
    · by_cases hs : s = ""
      · subst hs
        rw [if_neg (by decide : ¬pyTruthyStr (some "") = true), if_pos htt]
        congr 1
        apply List.filter_congr
        intro a _
        show ts.any (fun tag => a.tags.contains tag) = _
        rw [any_contains_comm]
        simp [listSpecPred, search_in_content_empty]
      · rw [if_pos (hsome s hs), if_pos htt]
        congr 1
        rw [List.filter_filter]
        apply List.filter_congr
        intro a _
        show (a.search_in_content s && ts.any (fun tag => a.tags.contains tag)) = _
        rw [any_contains_comm]
        simp [listSpecPred, Bool.and_comm]

/-- C1 (amended): with a non-empty tag list (when provided) and any
query, `list_notes` returns exactly the notes passing the spec's filter
(as a permutation), sorted by `updated_at` descending, and within each
equal-`updated_at` class the notes appear in their original insertion
order (the order of the store's map). -/
theorem list_notes_amended (m : NoteManager) (ot : Option (List String))
    (oq : Option String) (hne : ot ≠ some ([] : List String)) :
    ((NoteManager.list_notes m ot oq).1.Perm
        ((m.notes.map Prod.snd).filter (listSpecPred ot oq)))
    ∧ (NoteManager.list_notes m ot oq).1.Pairwise (fun a b => b.updated_at ≤ a.updated_at)
    ∧ ∀ k : Int, (NoteManager.list_notes m ot oq).1.filter (fun n => n.updated_at == k)
        = ((m.notes.map Prod.snd).filter (listSpecPred ot oq)).filter
            (fun n => n.updated_at == k) := by
  have he := list_notes_filter_eq m ot oq hne
  refine ⟨?_, ?_, ?_⟩
  · rw [he]
    exact sortDesc_perm _
  · rw [he]
    exact sortDesc_pairwise _
  · intro k
    rw [he, sortDesc_filter_key]

/-- Witness for C1 at a concrete store, tag filter and query. -/
theorem list_notes_amended_witness :
    (some ["x"] ≠ some ([] : List String))
    ∧ (((NoteManager.list_notes mgr1 (some ["x"]) (some "app")).1.Perm
          ((mgr1.notes.map Prod.snd).filter (listSpecPred (some ["x"]) (some "app"))))
       ∧ (NoteManager.list_notes mgr1 (some ["x"]) (some "app")).1.Pairwise
           (fun a b => b.updated_at ≤ a.updated_at)
       ∧ ∀ k : Int, (NoteManager.list_notes mgr1 (some ["x"]) (some "app")).1.filter
             (fun n => n.updated_at == k)
           = ((mgr1.notes.map Prod.snd).filter (listSpecPred (some ["x"]) (some "app"))).filter
               (fun n => n.updated_at == k)) :=
  ⟨by decide, list_notes_amended mgr1 (some ["x"]) (some "app") (by decide)⟩

/-- Counterexample for C1 as stated: with a provided-but-empty tag list
the source skips the tag filter entirely (Python truthiness) and returns
the note, while the claim's filter ("at least one tag in the given tag
list") keeps nothing. -/
theorem list_notes_claim_counterexample :
    (NoteManager.list_notes mgr1 (some []) none).1 = [note1]
    ∧ (mgr1.notes.map Prod.snd).filter (listSpecPred (some []) none) = [] := by
  constructor
  · rfl
  · rfl

/-! Helper lemmas about the Python `or`-defaults. -/

theorem pyListOr_some_nil (l : List String) : pyListOr (some l) [] = l := by
  by_cases h : l = []
  · simp [pyListOr, h]
  · simp [pyListOr, h]

theorem pyStrOr_some_of_ne (s d : String) (h : s ≠ "") : pyStrOr (some s) d = s := by
  simp [pyStrOr, h]

/-- C3: `Serialize` (`to_dict`) followed by `Deserialize` (`from_dict`)
returns an equal note — same id, title, content, tags and timestamps
(the ISO codec is lossless at the model's precision).  The hypothesis
`note_id ≠ ""` holds for every note the program can build, since
`__init__` replaces a falsy id with a fresh UUID string. -/
theorem to_dict_from_dict_roundtrip (n : Note) (fid : String) (h : n.note_id ≠ "") :
    Note.from_dict n.to_dict "" fid = .ok n := by
  obtain ⟨t, c, tg, id, ca, ua⟩ := n
  have h2 : id ≠ "" := h
  simp [Note.from_dict, Note.to_dict, dlookup, jvalAsString, dictGetTags, fromisoformat,
    Note.init, pyListOr_some_nil, pyStrOr, h2]

/-- Witness for C3 at a concrete note. -/
theorem to_dict_from_dict_roundtrip_witness :
    note3.note_id ≠ "" ∧ Note.from_dict note3.to_dict "" "f" = .ok note3 :=
  ⟨by decide, to_dict_from_dict_roundtrip note3 "f" (by decide)⟩

/-- Inversion on a successful `from_dict`: the resulting tags come from
the dict's `tags` entry (through the `or []` default), and the two
timestamp entries of the dict are exactly the ISO strings of the
resulting note's timestamps. -/
theorem from_dict_ok_inv (data : List (String × JVal)) (content fid : String) (n : Note)
    (h : Note.from_dict data content fid = .ok n) :
    n.tags = pyListOr (some (dictGetTags data)) []
    ∧ dlookup data "created_at" = some (.iso n.created_at)
    ∧ dlookup data "updated_at" = some (.iso n.updated_at) := by
  unfold Note.from_dict at h
  cases htv : dlookup data "title" with
  | none =>
    rw [htv] at h
    exact Except.noConfusion h
  | some tv =>
    rw [htv] at h
    cases hiv : dlookup data "note_id" with
    | none =>
      rw [hiv] at h
      exact Except.noConfusion h
    | some iv =>
      rw [hiv] at h
      cases hcv : dlookup data "created_at" with
      | none =>
        rw [hcv] at h
        exact Except.noConfusion h
      | some cv =>
        rw [hcv] at h
        cases cv with
        | iso ca =>
          simp only [fromisoformat] at h
          cases huv : dlookup data "updated_at" with
          | none =>
            rw [huv] at h
            exact Except.noConfusion h
          | some uv =>
            rw [huv] at h
            cases uv with
            | iso ua =>
              simp only [fromisoformat] at h
              have hn := (Except.ok.injEq _ _).mp h.symm
              subst hn
              exact ⟨rfl, rfl, rfl⟩
            | s v =>
              simp only [fromisoformat] at h
              exact Except.noConfusion h
            | strList vs =>
              simp only [fromisoformat] at h
              exact Except.noConfusion h
            | obj kvs =>
              simp only [fromisoformat] at h
              exact Except.noConfusion h
        | s v =>
          simp only [fromisoformat] at h
          exact Except.noConfusion h
        | strList vs =>
          simp only [fromisoformat] at h
          exact Except.noConfusion h
        | obj kvs =>
          simp only [fromisoformat] at h
          exact Except.noConfusion h

theorem pyListOr_nodup (tags : Option (List String)) (d : List String)
    (htags : ∀ l, tags = some l → l.Nodup) (hd : d.Nodup) : (pyListOr tags d).Nodup := by
  cases tags with
  | none => exact hd
  | some l =>
    by_cases h : l = []
    · simp [pyListOr, h, hd]
    · simp only [pyListOr, if_neg h]
      exact htags l rfl

/-- C4 (amended): every note reachable through the public operations has
duplicate-free tags, provided the tag lists supplied to `Construct`,
`Deserialize` and `Update` are themselves duplicate-free (the source
stores a supplied tags list verbatim; only `add_tag` checks membership). -/
theorem reachable_tags_nodup (n : Note) (h : ReachableND n) : n.tags.Nodup := by
  induction h with
  | construct title content tags note_id ca ua fid n1 n2 htags =>
    exact pyListOr_nodup tags [] htags List.nodup_nil
  | deserialize data content fid n hok htags =>
    have hinv := (from_dict_ok_inv data content fid n hok).1
    rw [hinv]
    exact pyListOr_nodup _ [] (fun l hl => by
      cases hl
      exact htags) List.nodup_nil
  | update n hn h2t title content tags now htags ih =>
    cases title <;> cases content <;> cases tags <;>
      simp_all [Note.update, pyListOr_nodup]
  | add_tag n hn tag now ih =>
    by_cases h : tag ∈ n.tags
    · simpa [Note.add_tag, h] using ih
    · simp only [Note.add_tag]
      rw [if_neg (by simpa using h)]
      simpa [List.nodup_append, h] using ih
  | remove_tag n hn tag now ih =>
    by_cases h : tag ∈ n.tags
    · simp only [Note.remove_tag]
      rw [if_pos (by simpa using h)]
      exact ih.erase tag
    · simp only [Note.remove_tag]
      rw [if_neg (by simpa using h)]
      exact ih

/-- Counterexample for C4 as stated: `Construct` stores a duplicated
tag list verbatim, so a reachable note can have duplicate tags. -/
theorem construct_duplicate_tags_counterexample :
    ¬ (Note.init "t" "" (some ["a", "a"]) none none none "id" 0 0).tags.Nodup := by
  decide

/-- Witness for C4 at a concrete reachable note. -/
theorem reachable_tags_nodup_witness :
    ReachableND (Note.init "t" "" (some ["a"]) none none none "id" 0 0)
    ∧ (Note.init "t" "" (some ["a"]) none none none "id" 0 0).tags.Nodup := by
  have h : ReachableND (Note.init "t" "" (some ["a"]) none none none "id" 0 0) :=
    ReachableND.construct "t" "" (some ["a"]) none none none "id" 0 0
      (fun l hl => by
        cases hl
        decide)
  exact ⟨h, reachable_tags_nodup _ h⟩

theorem note_update_fields (n : Note) (h2t : String → String)
    (title content : Option String) (tags : Option (List String)) (now : Int) :
    (n.update h2t title content tags now).created_at = n.created_at
    ∧ (n.update h2t title content tags now).updated_at = now := by
  cases title <;> cases content <;> cases tags <;> simp [Note.update]

/-- C8 (amended): `updated_at >= created_at` holds for every reachable
note, provided the clock is monotone (every mutator reading is at least
the note's creation instant) and every explicitly supplied pair of
timestamps — in `Construct` or in the data handed to `Deserialize` —
already respects the ordering. -/
theorem reachable_created_le_updated (n : Note) (h : ReachableTS n) :
    n.created_at ≤ n.updated_at := by
  induction h with
  | construct title content tags note_id ca ua fid n1 n2 hle => exact hle
  | deserialize data content fid n hok hts =>
    have hinv := from_dict_ok_inv data content fid n hok
    exact hts n.created_at n.updated_at hinv.2.1 hinv.2.2
  | update n hn h2t title content tags now hnow ih =>
    have hf := note_update_fields n h2t title content tags now
    rw [hf.1, hf.2]
    exact hnow
  | add_tag n hn tag now hnow ih =>
    by_cases hmem : tag ∈ n.tags
    · simpa [Note.add_tag, hmem] using ih
    · simp only [Note.add_tag]
      rw [if_neg (by simpa using hmem)]
      exact hnow
  | remove_tag n hn tag now hnow ih =>
    by_cases hmem : tag ∈ n.tags
    · simp only [Note.remove_tag]
      rw [if_pos (by simpa using hmem)]
      exact hnow
    · simp only [Note.remove_tag]
      rw [if_neg (by simpa using hmem)]
      exact ih

/-- Counterexample for C8 as stated: `Deserialize` accepts data with
`updated_at < created_at` without any check, producing a reachable note
that violates the invariant. -/
theorem deserialize_reversed_timestamps_counterexample :
    Note.from_dict dict8 "" "f" = .ok note8 ∧ note8.updated_at < note8.created_at := by
  exact ⟨rfl, by decide⟩

/-- Witness for C8 at a concrete reachable note. -/
theorem reachable_created_le_updated_witness :
    ReachableTS (Note.init "t" "" none none none none "id" 3 7)
    ∧ (Note.init "t" "" none none none none "id" 3 7).created_at
        ≤ (Note.init "t" "" none none none none "id" 3 7).updated_at := by
  have h : ReachableTS (Note.init "t" "" none none none none "id" 3 7) :=
    ReachableTS.construct "t" "" none none none none "id" 3 7 (by decide)
  exact ⟨h, reachable_created_le_updated _ h⟩

/-! Helper lemmas about the map write used by `create_note`. -/

theorem dinsert_of_not_mem {α : Type} (k : String) (v : α) (d : List (String × α))
    (h : k ∉ d.map Prod.fst) : dinsert k v d = d ++ [(k, v)] := by
  have hany : (d.any (fun kv => kv.1 == k)) = false := by
    rw [List.any_eq_false]
    intro kv hkv
    simp only [beq_iff_eq]
    intro he
    exact h (he ▸ List.mem_map_of_mem Prod.fst hkv)
  simp [dinsert, hany]

theorem dlookup_append_singleton_fresh {α : Type} (k : String) (v : α)
    (d : List (String × α)) (h : k ∉ d.map Prod.fst) :
    dlookup (d ++ [(k, v)]) k = some v := by
  induction d with
  | nil => simp [dlookup]
  | cons kv d ih =>
    have hne : ¬(kv.1 == k) = true := by
      simp only [beq_iff_eq]
      intro he
      exact h (by simp [he])
    have h2 : k ∉ d.map Prod.fst := fun hm => h (by simp [hm])
    simp only [List.cons_append, dlookup]
    rw [if_neg hne]
    exact ih h2

/-- C2 (amended): with a fresh generated id, a duplicate-free key set and
ordered clock readings, `create_note` returns a note carrying the given
title and tags, the Markdown conversion of the given content, the fresh
id (unique in the store, which afterwards maps it to this very note),
and construction-time timestamps with `created_at <= updated_at` (the
source reads the clock once for each, so they are equal exactly when the
two readings coincide). -/
theorem create_note_amended (h2t : String → String) (m : NoteManager) (fs : FS)
    (title content : String) (ts : List String) (fid : String) (now1 now2 : Int)
    (hfresh : fid ∉ m.notes.map Prod.fst) (hnd : (m.notes.map Prod.fst).Nodup)
    (hclock : now1 ≤ now2) :
    let r := NoteManager.create_note h2t m fs title content (some ts) fid now1 now2
    r.1.title = title
    ∧ r.1.content = html_to_markdown h2t content
    ∧ r.1.tags = ts
    ∧ r.1.note_id = fid
    ∧ r.1.created_at = now1
    ∧ r.1.updated_at = now2
    ∧ r.1.created_at ≤ r.1.updated_at
    ∧ (r.2.1.notes.map Prod.fst).Nodup
    ∧ dlookup r.2.1.notes fid = some r.1 := by
  have hdi : dinsert fid
      (Note.init title (html_to_markdown h2t content) (some ts) none none none fid now1 now2)
      m.notes
      = m.notes ++ [(fid, Note.init title (html_to_markdown h2t content) (some ts)
          none none none fid now1 now2)] :=
    dinsert_of_not_mem _ _ _ hfresh
  refine ⟨rfl, rfl, pyListOr_some_nil ts, rfl, rfl, rfl, hclock, ?_, ?_⟩
  · show ((dinsert fid (Note.init title (html_to_markdown h2t content) (some ts)
        none none none fid now1 now2) m.notes).map Prod.fst).Nodup
    rw [hdi]
    simp only [List.map_append, List.map_cons, List.map_nil]
    rw [List.nodup_append]
    refine ⟨hnd, List.nodup_singleton fid, ?_⟩
    intro a ha hb
    rw [List.mem_singleton.mp hb] at ha
    exact hfresh ha
  · show dlookup (dinsert fid (Note.init title (html_to_markdown h2t content) (some ts)
        none none none fid now1 now2) m.notes) fid = some _
    rw [hdi]
    exact dlookup_append_singleton_fresh _ _ _ hfresh

/-- Counterexample for C2 as stated: the stored content is the Markdown
conversion of the given content, not the given content itself, and the
two separate clock reads can differ, making `created_at ≠ updated_at`. -/
theorem create_note_claim_counterexample :
    (NoteManager.create_note h2t2 mgr2 [] "T" "<b>hi</b>" (some ["a"]) "id1" 0 1).1.content
      ≠ "<b>hi</b>"
    ∧ (NoteManager.create_note h2t2 mgr2 [] "T" "<b>hi</b>" (some ["a"]) "id1" 0 1).1.created_at
      ≠ (NoteManager.create_note h2t2 mgr2 [] "T" "<b>hi</b>" (some ["a"]) "id1" 0 1).1.updated_at := by
  constructor
  · decide
  · decide

/-- Witness for C2 at concrete inputs. -/
theorem create_note_amended_witness :
    ("id1" ∉ mgr2.notes.map Prod.fst)
    ∧ (mgr2.notes.map Prod.fst).Nodup
    ∧ (0 : Int) ≤ 0
    ∧ (let r := NoteManager.create_note h2t2 mgr2 [] "T" "" (some ["a"]) "id1" 0 0
       r.1.title = "T"
       ∧ r.1.content = html_to_markdown h2t2 ""
       ∧ r.1.tags = ["a"]
       ∧ r.1.note_id = "id1"
       ∧ r.1.created_at = 0
       ∧ r.1.updated_at = 0
       ∧ r.1.created_at ≤ r.1.updated_at
       ∧ (r.2.1.notes.map Prod.fst).Nodup
       ∧ dlookup r.2.1.notes "id1" = some r.1) :=
  ⟨by decide, by decide, by decide,
   create_note_amended h2t2 mgr2 [] "T" "" ["a"] "id1" 0 0 (by decide) (by decide) (by decide)⟩

/-- A successful sequential map means every element succeeded. -/
theorem mapME_ok_forall {α β : Type} (f : α → Except String β) (l : List α) (bs : List β)
    (h : mapME f l = .ok bs) : ∀ x ∈ l, (f x).isOk = true := by
  induction l generalizing bs with
  | nil =>
    intro x hx
    cases hx
  | cons a l ih =>
    intro x hx
    unfold mapME at h
    cases hfa : f a with
    | error e =>
      rw [hfa] at h
      exact Except.noConfusion h
    | ok b =>
      rw [hfa] at h
      cases hml : mapME f l with
      | error e =>
        rw [hml] at h
        exact Except.noConfusion h
      | ok bs2 =>
        rcases List.mem_cons.mp hx with rfl | hx2
        · rw [hfa]
          rfl
        · exact ih bs2 hml x hx2

/-- C5 (amended): `_load_notes` is all-or-nothing.  When every entry of
the metadata file deserializes, all of them are loaded; when any single
entry is malformed, the failure aborts the whole load (with a logged
warning) and the store is left empty — the offending entry is not merely
skipped. -/
theorem load_notes_amended (fs : FS) (nf fid : String) (data : List (String × JVal))
    (hfile : dlookup fs nf = some (.json (.obj data))) :
    (∀ ps, mapME (loadEntry fs fid) data = .ok ps →
       NoteManager._load_notes fs nf fid = ps.foldl (fun d kv => dinsert kv.1 kv.2 d) [])
    ∧ ((∃ kv ∈ data, (loadEntry fs fid kv).isOk = false) →
       NoteManager._load_notes fs nf fid = []) := by
  have heq : NoteManager._load_notes fs nf fid
      = match mapME (loadEntry fs fid) data with
        | Except.ok pairs => pairs.foldl (fun d kv => dinsert kv.1 kv.2 d) []
        | Except.error _ => [] := by
    unfold NoteManager._load_notes
    rw [hfile]
  constructor
  · intro ps hps
    rw [heq, hps]
  · rintro ⟨kv, hmem, hbad⟩
    cases hm : mapME (loadEntry fs fid) data with
    | ok ps =>
      have hok := mapME_ok_forall _ _ _ hm kv hmem
      rw [hbad] at hok
      exact Bool.noConfusion hok
    | error e =>
      rw [heq, hm]

/-- Counterexample for C5 as stated: with one malformed entry next to a
well-formed one, the load produces an empty store — the well-formed
entry is not loaded, contradicting per-entry skipping. -/
theorem load_skips_entry_counterexample :
    NoteManager._load_notes fs5 "notes.json" "f" = []
    ∧ (loadEntry fs5 "f" ("a", .obj dict5)).isOk = true
    ∧ Note.from_dict dict5 "" "f"
        = .ok { title := "T", content := "", tags := [], note_id := "a",
                created_at := 0, updated_at := 0 } :=
  ⟨rfl, rfl, rfl⟩

/-- Witness for C5 at a concrete store whose metadata file has a
malformed entry. -/
theorem load_notes_amended_witness :
    dlookup fs5w "notes.json" = some (.json (.obj [("b", JVal.s "junk")]))
    ∧ (∃ kv ∈ [("b", JVal.s "junk")], (loadEntry fs5w "f" kv).isOk = false)
    ∧ NoteManager._load_notes fs5w "notes.json" "f" = [] :=
  ⟨rfl, ⟨("b", JVal.s "junk"), List.mem_singleton.mpr rfl, rfl⟩,
   (load_notes_amended fs5w "notes.json" "f" [("b", JVal.s "junk")] rfl).2
     ⟨("b", JVal.s "junk"), List.mem_singleton.mpr rfl, rfl⟩⟩

/-- The import loop counts and inserts exactly the entries that
deserialize, in order, skipping the failures. -/
theorem foldl_importStep (fid : String) (entries : List (String × JVal)) (c : Nat)
    (d : List (String × Note)) :
    entries.foldl (importStep fid) (c, d)
      = (c + (entries.filterMap (fun kv => (importEntry fid kv.2).toOption)).length,
         (entries.filterMap (fun kv => (importEntry fid kv.2).toOption)).foldl
           (fun d2 note => dinsert note.note_id note d2) d) := by
  induction entries generalizing c d with
  | nil => simp
  | cons kv entries ih =>
    have hok : ∀ a : Note, (Except.ok a : Except String Note).toOption = some a :=
      fun a => rfl
    have herr : ∀ e : String, (Except.error e : Except String Note).toOption
        = (none : Option Note) := fun e => rfl
    cases hi : importEntry fid kv.2 with
    | ok note =>
      simp only [List.foldl_cons, importStep, hi, List.filterMap_cons, hok]
      rw [ih]
      rw [Prod.ext_iff]
      refine ⟨?_, rfl⟩
      simp only [List.length_cons]
      omega
    | error e =>
      simp only [List.foldl_cons, importStep, hi, List.filterMap_cons, herr]
      exact ih c d

/-- C6: when the import file exists and holds a JSON mapping, every
entry that deserializes is inserted keyed by its own embedded id
(overwriting any existing entry for that id, in file order), failing
entries are skipped, the store is persisted once at the end exactly when
at least one note was imported, and the count of imported notes is
returned; a missing file fails with `FileNotFoundError`. -/
theorem import_notes_spec (m : NoteManager) (fs : FS) (path fid : String) :
    (∀ entries : List (String × JVal), dlookup fs path = some (.json (.obj entries)) →
      (let good := entries.filterMap (fun kv => (importEntry fid kv.2).toOption)
       let m2 : NoteManager :=
         { m with notes := good.foldl (fun d note => dinsert note.note_id note d) m.notes }
       NoteManager.import_notes m fs path fid
         = .ok (good.length, m2,
             if 0 < good.length then NoteManager._save_notes m2 fs else fs)))
    ∧ (dlookup fs path = none →
       NoteManager.import_notes m fs path fid = .error "FileNotFoundError") := by
  constructor
  · intro entries hfile
    have heq : NoteManager.import_notes m fs path fid
        = (let r := entries.foldl (importStep fid) (0, m.notes)
           let m2 : NoteManager := { m with notes := r.2 }
           .ok (r.1, m2, if r.1 > 0 then NoteManager._save_notes m2 fs else fs)) := by
      unfold NoteManager.import_notes
      rw [hfile]
    rw [heq, foldl_importStep]
    simp
  · intro hnone
    have heq : NoteManager.import_notes m fs path fid = .error "FileNotFoundError" := by
      unfold NoteManager.import_notes
      rw [hnone]
    exact heq

/-- Witness for C6: the spec's own example — a file with two valid and
one malformed entry imports exactly two notes. -/
theorem import_notes_spec_witness :
    dlookup fs6 "imp.json" = some (.json (.obj entries6))
    ∧ (entries6.filterMap (fun kv => (importEntry "f" kv.2).toOption)).length = 2
    ∧ (let good := entries6.filterMap (fun kv => (importEntry "f" kv.2).toOption)
       let m2 : NoteManager :=
         { mgr6 with notes := good.foldl (fun d note => dinsert note.note_id note d) mgr6.notes }
       NoteManager.import_notes mgr6 fs6 "imp.json" "f"
         = .ok (good.length, m2,
             if 0 < good.length then NoteManager._save_notes m2 fs6 else fs6)) :=
  ⟨rfl, rfl, (import_notes_spec mgr6 fs6 "imp.json" "f").1 entries6 rfl⟩

end NotepyOnline
